import Mathlib

/-!
Verification development for the memory-matching game server
(`src/routes/game.py`, `src/crop_service.py`).

Shallow embedding conventions:
* The on-disk image store is a finite map from rendered absolute paths to
  `FileData`; image bytes are abstracted to dimensions plus an identity tag
  (re-encoding and cropping rewrite the tag, so overwrites are observable).
* Filesystem paths are lists of components; `resolvePath` models the
  OS-level resolution of `.`/`..` performed by `Path.resolve()` (symlinks
  are not modelled).  The image root `Path(__file__)...parent / 'img'` is
  abstracted to the fixed absolute directory `/srv/img`.
* The Flask session is a record with one `Option` field per session key
  (`none` = key absent); `session.get(k, d)` is `Option.getD`.
* `random.sample`, `random.shuffle` are oracles passed as parameters.
* String manipulation (`rsplit`, `startswith`, `str.lower`, `Path.stem`,
  `Path.suffix`) is re-implemented structurally over the character list so
  that concrete instances reduce in the kernel.
-/

namespace MemoryGame

/-! ### Strings and paths -/

/-- Split a string at every occurrence of the separator character,
keeping empty pieces (Python `str.split(sep)`). -/
def splitCharAux (sep : Char) : List Char → List Char → List String
  | acc, [] => [String.mk acc.reverse]
  | acc, c :: rest =>
    if c = sep then String.mk acc.reverse :: splitCharAux sep [] rest
    else splitCharAux sep (c :: acc) rest

def splitOnChar (sep : Char) (s : String) : List String :=
  splitCharAux sep [] s.data

/-- Join strings with a separator (Python `sep.join`). -/
def joinSep (sep : String) : List String → String
  | [] => ""
  | [x] => x
  | x :: y :: xs => x ++ sep ++ joinSep sep (y :: xs)

/-- Python `a.startswith(b)`. -/
def startsWithStr (a b : String) : Bool :=
  List.isPrefixOf b.data a.data

def lowerStr (s : String) : String :=
  String.mk (s.data.map Char.toLower)

/-- `base_filename.rsplit('.', 1)[0] if '.' in base_filename else base_filename`. -/
def rsplitStem (s : String) : String :=
  if s.data.contains '.' then joinSep "." (splitOnChar '.' s).dropLast else s

/-- A filesystem path as a list of components (absolute, rooted at `/`). -/
abbrev FsPath := List String

def splitPath (s : String) : FsPath := splitOnChar '/' s

/-- `Path.resolve()`: process `.`/`..`/empty components (symlinks not modelled). -/
def resolveComps : FsPath → FsPath → FsPath
  | acc, [] => acc
  | acc, "" :: rest => resolveComps acc rest
  | acc, "." :: rest => resolveComps acc rest
  | acc, ".." :: rest => resolveComps acc.dropLast rest
  | acc, c :: rest => resolveComps (acc ++ [c]) rest

def resolvePath (p : FsPath) : FsPath := resolveComps [] p

/-- `Path.as_posix()` for an absolute path. -/
def render (p : FsPath) : String := "/" ++ joinSep "/" p

/-- `Path.stem` of the final component (last-suffix form, as used by the code). -/
def pathStem (p : FsPath) : String := rsplitStem (p.getLastD "")

/-- `Path.suffix` of the final component. -/
def pathSuffix (p : FsPath) : String :=
  let last := p.getLastD ""
  if last.data.contains '.' then "." ++ (splitOnChar '.' last).getLastD "" else ""

/-! ### Filesystem model -/

/-- Abstract image-file content: a decodable image with post-EXIF dimensions
and an identity tag, or undecodable bytes. -/
inductive FileData : Type
  | image (w h : Nat) (tag : String)
  | blob (tag : String)
deriving DecidableEq

/-- The disk: rendered resolved path ↦ content (later entries shadowed). -/
abbrev FS := List (String × FileData)

def readFS (fs : FS) (p : FsPath) : Option FileData :=
  List.lookup (render (resolvePath p)) fs

def existsFS (fs : FS) (p : FsPath) : Bool :=
  (readFS fs p).isSome

def writeFS (fs : FS) (p : FsPath) (d : FileData) : FS :=
  (render (resolvePath p), d) :: fs

/-- The canonical image root (`Path(__file__)...parent / 'img'`, abstracted). -/
def imgDir : FsPath := ["srv", "img"]

/-! ### crop_service.py -/

/-- `get_safe_image_path` (crop_service.py:62-78): traversal check
(`file_path.resolve().parent != img_dir.resolve()`) then existence. -/
def get_safe_image_path (fs : FS) (filename : String) : Option FsPath :=
  let file_path := imgDir ++ splitPath filename
  if (resolvePath file_path).dropLast = resolvePath imgDir then
    if existsFS fs file_path then some file_path else none
  else none

/-- `_load_and_rotate`: decodable image or `None`. -/
def load_and_rotate (fs : FS) (p : FsPath) : Option (Nat × Nat × String) :=
  match readFS fs p with
  | some (.image w h tag) => some (w, h, tag)
  | _ => none

/-- `get_image_dimensions` (crop_service.py:24-44). -/
def get_image_dimensions (fs : FS) (filename : String) : Option (Nat × Nat) :=
  match get_safe_image_path fs filename with
  | none => none
  | some p =>
    match load_and_rotate fs p with
    | none => none
    | some (w, h, _) => some (w, h)

/-- `is_square_image` (crop_service.py:47-59). -/
def is_square_image (fs : FS) (filename : String) : Bool :=
  match get_image_dimensions fs filename with
  | none => false
  | some (w, h) => w = h

/-- `copy_square_image` (crop_service.py:81-116).  Note: it neither checks
that a derivative already exists nor that the source is square; `.jpg`/
`.jpeg` sources are byte-copied (`shutil.copy2`), others re-encoded. -/
def copy_square_image (fs : FS) (filename : String) : Option String × FS :=
  match get_safe_image_path fs filename with
  | none => (none, fs)
  | some img_path =>
    let name_without_ext := pathStem img_path
    let square_filename := name_without_ext ++ "_square.jpg"
    let square_path := img_path.dropLast ++ ["squared", square_filename]
    if lowerStr (pathSuffix img_path) = ".jpg" ∨ lowerStr (pathSuffix img_path) = ".jpeg" then
      match readFS fs img_path with
      | some d => (some square_filename, writeFS fs square_path d)
      | none => (none, fs)
    else
      match readFS fs img_path with
      | some (.image w h tag) =>
        (some square_filename, writeFS fs square_path (.image w h ("jpeg95:" ++ tag)))
      | _ => (none, fs)

structure CropBox : Type where
  x : Int
  y : Int
  size : Int
deriving DecidableEq

/-- `save_cropped_image` (crop_service.py:119-154): crop to a
`size × size` square and re-encode as JPEG quality 95 (crop offsets folded
into the identity tag). -/
def save_cropped_image (fs : FS) (filename : String) (crop_box : CropBox) :
    Option String × FS :=
  match get_safe_image_path fs filename with
  | none => (none, fs)
  | some img_path =>
    match load_and_rotate fs img_path with
    | none => (none, fs)
    | some (_, _, tag) =>
      let square_filename := pathStem img_path ++ "_square.jpg"
      let square_path := img_path.dropLast ++ ["squared", square_filename]
      (some square_filename,
       writeFS fs square_path (.image crop_box.size.toNat crop_box.size.toNat ("jpeg95crop:" ++ tag)))

/-! ### routes/game.py : session and helpers -/

/-- The Flask session (`none` = key absent; `session.clear()` sets all to
`none`).  Card positions are `Int` because the code checks `card < 0`. -/
structure Session : Type where
  all_game_images : Option (List String) := none
  pending_crops : Option (List String) := none
  cards : Option (List Nat) := none
  matched : Option (List Int) := none
  current_player : Option Nat := none
  player1_matches : Option (List Nat) := none
  player2_matches : Option (List Nat) := none
deriving DecidableEq

def emptySession : Session := {}

/-- `_get_cropped_version_path` (game.py:69-81):
`img/squared/<stem>_square.jpg` via `rsplit('.', 1)`. -/
def get_cropped_version_path (base_filename : String) : FsPath :=
  imgDir ++ ["squared"] ++ splitPath (rsplitStem base_filename ++ "_square.jpg")

/-- `_has_cropped_version` (game.py:84-93). -/
def has_cropped_version (fs : FS) (base_filename : String) : Bool :=
  existsFS fs (get_cropped_version_path base_filename)

/-- `_get_display_filename` (game.py:96-108): cropped name if the
derivative exists, else the base filename. -/
def get_display_filename (fs : FS) (base_filename : String) : String :=
  if has_cropped_version fs base_filename then
    "squared/" ++ rsplitStem base_filename ++ "_square.jpg"
  else base_filename

/-- `_get_k_random_images` (game.py:47-66); `files` are catalog paths,
`sample` is the `random.sample` oracle, `.name` is the last component. -/
def get_k_random_images (sample : List FsPath → Nat → List FsPath)
    (files : List FsPath) (k : Nat) : List String :=
  if files.length ≤ k then files.map (fun f => f.getLastD "")
  else (sample files k).map (fun f => f.getLastD "")

/-- `get_card_image` (game.py:186-198); `0 <= card_value` holds by type. -/
def get_card_image (s : Session) (card_value : Nat) : Option String :=
  let images := s.all_game_images.getD []
  if card_value < images.length then some (images.getD card_value "") else none

/-- `setup_card_pairs` (game.py:201-208); `shuffle` is the
`random.shuffle` oracle, `list(range(k)) * 2 = range k ++ range k`. -/
def setup_card_pairs (shuffle : List Nat → List Nat) (s : Session) : Session :=
  let images := s.all_game_images.getD []
  let pairs := shuffle (List.range images.length ++ List.range images.length)
  { s with cards := some pairs, matched := some [] }

/-- The per-image loop of `init_game_state` (game.py:164-172): skip images
with a derivative, copy square ones, queue the rest for cropping. -/
def process_selected (fs : FS) : List String → List String × FS
  | [] => ([], fs)
  | img :: rest =>
    if has_cropped_version fs img then process_selected fs rest
    else if is_square_image fs img then
      process_selected (copy_square_image fs img).2 rest
    else
      let pfs := process_selected fs rest
      (img :: pfs.1, pfs.2)

/-- `init_game_state` (game.py:146-183); `selected_base` is the draw of
`_get_k_random_images` (randomness as a parameter).  Stores BASE
filenames. -/
def init_game_state (selected_base : List String) (fs : FS) : Session × FS :=
  let pfs := process_selected fs selected_base
  ({ all_game_images := some selected_base
     pending_crops := some pfs.1
     cards := some []
     matched := some []
     current_player := some 1
     player1_matches := some []
     player2_matches := some [] }, pfs.2)

/-! ### routes/game.py : route handlers -/

inductive GameError : Type
  | invalidIndex
  | alreadyMatched
deriving DecidableEq

/-- The JSON payload of a successful `/api/game/check` response. -/
structure CheckResult : Type where
  is_match : Bool
  image1 : Option String
  image2 : Option String
  current_player : Nat
  player1_pairs : Nat
  player2_pairs : Nat
  matched_indices : List Int
  game_over : Bool
deriving DecidableEq

/-- The `if current_player == 1: player1_matches.append(card1_val) else:
player2_matches.append(card1_val)` block of `check_match` (game.py:441-444). -/
def credit_player (current_player : Nat) (p1m p2m : List Nat) (v : Nat) :
    List Nat × List Nat :=
  if current_player = 1 then (p1m ++ [v], p2m) else (p1m, p2m ++ [v])

/-- `current_player = 2 if current_player == 1 else 1` (game.py:448). -/
def toggle_player (current_player : Nat) : Nat :=
  if current_player = 1 then 2 else 1

/-- `check_match` (game.py:406-467). -/
def check_match (s : Session) (card1 card2 : Int) :
    Except GameError (CheckResult × Session) :=
  let cards := s.cards.getD []
  let matched := s.matched.getD []
  let player1_matches := s.player1_matches.getD []
  let player2_matches := s.player2_matches.getD []
  let current_player := s.current_player.getD 1
  if card1 ≥ (cards.length : Int) ∨ card2 ≥ (cards.length : Int) ∨ card1 < 0 ∨ card2 < 0 then
    .error .invalidIndex
  else if card1 ∈ matched ∨ card2 ∈ matched then
    .error .alreadyMatched
  else
    let card1_val := cards.getD card1.toNat 0
    let card2_val := cards.getD card2.toNat 0
    let img1 := get_card_image s card1_val
    let img2 := get_card_image s card2_val
    if card1_val = card2_val then
      let matched' := matched ++ [card1, card2]
      let pm := credit_player current_player player1_matches player2_matches card1_val
      .ok (⟨true, img1, img2, current_player, pm.1.length, pm.2.length, matched',
            decide (matched'.length = cards.length)⟩,
           { s with matched := some matched', current_player := some current_player,
                    player1_matches := some pm.1, player2_matches := some pm.2 })
    else
      let cp' := toggle_player current_player
      .ok (⟨false, img1, img2, cp', player1_matches.length, player2_matches.length, matched,
            false⟩,
           { s with matched := some matched, current_player := some cp',
                    player1_matches := some player1_matches,
                    player2_matches := some player2_matches })

inductive SaveCropResult : Type
  | missingData                       -- 400 'Missing data'
  | imageNotFound                     -- 404 'Image not found'
  | cropFailed                        -- 400 'Crop failed'
  | keyError                          -- uncaught KeyError from session['pending_crops']
  | valueError                        -- uncaught ValueError from list.remove
  | pendingCrops (next_image : String)
  | ok
deriving DecidableEq

/-- Python `list.remove`: drop the first occurrence. -/
def removeFirst : List String → String → List String
  | [], _ => []
  | x :: xs, y => if x = y then xs else x :: removeFirst xs y

/-- `save_crop` (game.py:282-319).  There is no membership check before
`session['pending_crops'].remove(filename)`: a missing key raises
`KeyError` and a non-pending filename raises `ValueError`, both uncaught —
and in those cases the derivative has already been written. -/
def save_crop (shuffle : List Nat → List Nat) (fs : FS) (s : Session)
    (filename : Option String) (crop_box : Option CropBox) :
    SaveCropResult × Session × FS :=
  match filename, crop_box with
  | some fn, some cb =>
    if fn = "" then (.missingData, s, fs)      -- empty string is falsy
    else
      match get_safe_image_path fs fn with
      | none => (.imageNotFound, s, fs)
      | some _ =>
        match save_cropped_image fs fn cb with
        | (none, _) => (.cropFailed, s, fs)
        | (some _, fs') =>
          match s.pending_crops with
          | none => (.keyError, s, fs')
          | some q =>
            if fn ∈ q then
              let s1 := { s with pending_crops := some (removeFirst q fn) }
              let pending := s1.pending_crops.getD []
              if pending.isEmpty then (.ok, setup_card_pairs shuffle s1, fs')
              else (.pendingCrops (pending.headD ""), s1, fs')
            else (.valueError, s, fs')
  | _, _ => (.missingData, s, fs)

inductive InitResult : Type
  | pendingCrops (pending_image : String) (total_pending : Nat)
  | ok (board_width board_height : Nat) (images : List String) (total_pairs : Nat)
deriving DecidableEq

/-- `init` (game.py:322-366).  Fresh sampling only when `all_game_images`
is absent; otherwise only the play-state keys are reset. -/
def init (bw bh : Nat) (selected_base : List String)
    (shuffle : List Nat → List Nat) (fs : FS) (s : Session) :
    InitResult × Session × FS :=
  let sfs :=
    if s.all_game_images.isNone then init_game_state selected_base fs
    else ({ s with matched := some [], current_player := some 1,
                   player1_matches := some [], player2_matches := some [],
                   cards := some [] }, fs)
  let s1 := sfs.1
  let pending := s1.pending_crops.getD []
  if pending.isEmpty then
    let s2 := setup_card_pairs shuffle s1
    let images := s2.all_game_images.getD []
    (.ok bw bh images images.length, s2, sfs.2)
  else (.pendingCrops (pending.headD "") pending.length, s1, sfs.2)

/-- `reset` (game.py:470-478): `session.clear()`. -/
def reset (_s : Session) : Session := emptySession

inductive ServeResult : Type
  | file (resolved : FsPath)      -- send_file
  | invalidPath                   -- 404 'Invalid path'
  | notFound                      -- 404 'Image not found'
deriving DecidableEq

/-- `serve_image` (game.py:227-259).  Note the security check is a string
`startswith` on the resolved parent, not equality with the image root. -/
def serve_image (fs : FS) (filepath : String) : ServeResult :=
  let cropped_path := get_cropped_version_path filepath
  if existsFS fs cropped_path then
    if startsWithStr (render ((resolvePath cropped_path).dropLast)) (render (resolvePath imgDir)) then
      .file (resolvePath cropped_path)
    else .invalidPath
  else
    let file_path := imgDir ++ splitPath filepath
    if startsWithStr (render ((resolvePath file_path).dropLast)) (render (resolvePath imgDir)) then
      if existsFS fs file_path then .file (resolvePath file_path)
      else .notFound
    else .invalidPath

/-! ### Invariant definitions -/

/-- The matched list decomposes into consecutive position pairs holding
equal card values ("only positions of confirmed pairs"). -/
inductive Paired (cards : List Nat) : List Int → Prop
  | nil : Paired cards []
  | pair (p q : Int) (rest : List Int)
      (h : cards.getD p.toNat 0 = cards.getD q.toNat 0)
      (hr : Paired cards rest) : Paired cards (p :: q :: rest)

/-- The state invariant maintained by distinct-position `check_match`
steps: `matched` is duplicate-free, in range, and pair-structured. -/
def MatchInv (s : Session) : Prop :=
  ∃ cards m, s.cards = some cards ∧ s.matched = some m ∧
    m.Nodup ∧ (∀ p ∈ m, 0 ≤ p ∧ p < (cards.length : Int)) ∧ Paired cards m

/-- Sessions reachable from a freshly dealt board by successful
`check_match` calls whose two positions are distinct. -/
inductive ReachableDistinct : Session → Prop
  | dealt (shuffle : List Nat → List Nat) (s : Session) :
      ReachableDistinct (setup_card_pairs shuffle s)
  | step (s : Session) (c1 c2 : Int) (r : CheckResult) (s' : Session)
      (hprev : ReachableDistinct s) (hne : c1 ≠ c2)
      (hok : check_match s c1 c2 = .ok (r, s')) : ReachableDistinct s'

/-! ### Concrete fixtures used by witnesses and counterexamples -/

/-- A dealt 4-card session. -/
def s1w : Session :=
  { all_game_images := some ["a.jpg", "b.jpg"], pending_crops := some [],
    cards := some [0, 1, 0, 1], matched := some [], current_player := some 1,
    player1_matches := some [], player2_matches := some [] }

/-- A 2-image session about to be dealt. -/
def s2w : Session :=
  { all_game_images := some ["a.jpg", "b.jpg"], pending_crops := some [],
    cards := none, matched := none, current_player := some 1,
    player1_matches := some [], player2_matches := some [] }

/-- A 1-image session about to be dealt (its board is `[0, 0]`). -/
def s2c : Session :=
  { all_game_images := some ["a.jpg"], pending_crops := some [],
    cards := none, matched := none, current_player := some 1,
    player1_matches := some [], player2_matches := some [] }

/-- A session with one unresolved pending crop. -/
def s7w : Session :=
  { all_game_images := some ["a.jpg", "b.jpg"], pending_crops := some ["b.jpg"],
    cards := some [], matched := some [], current_player := some 1,
    player1_matches := some [], player2_matches := some [] }

/-- A disk holding one non-square landscape JPEG. -/
def fs3 : FS := [("/srv/img/photo.jpg", .image 30 20 "A")]

/-- A session whose pending-crop queue has already been drained. -/
def s3 : Session :=
  { all_game_images := some ["photo.jpg"], pending_crops := some [],
    cards := some [], matched := some [], current_player := some 1,
    player1_matches := some [], player2_matches := some [] }

def box3 : CropBox := ⟨0, 0, 10⟩

/-- A disk where `photo.jpg` has a cached square derivative. -/
def fs4 : FS :=
  [("/srv/img/photo.jpg", .image 30 20 "A"),
   ("/srv/img/squared/photo_square.jpg", .image 10 10 "D")]

/-- A dealt 2-card session over the single image `photo.jpg`. -/
def s4 : Session :=
  { all_game_images := some ["photo.jpg"], pending_crops := some [],
    cards := some [0, 0], matched := some [], current_player := some 1,
    player1_matches := some [], player2_matches := some [] }

/-- The value of `check_match s4 0 1`. -/
def out4 : CheckResult × Session :=
  (⟨true, some "photo.jpg", some "photo.jpg", 1, 1, 0, [0, 1], true⟩,
   { all_game_images := some ["photo.jpg"], pending_crops := some [],
     cards := some [0, 0], matched := some [0, 1], current_player := some 1,
     player1_matches := some [0], player2_matches := some [] })

/-- A disk where the non-square `photo.jpg` already has a derivative `B`. -/
def fs5 : FS :=
  [("/srv/img/photo.jpg", FileData.image 30 20 "A"),
   ("/srv/img/squared/photo_square.jpg", FileData.image 10 10 "B")]

/-- A disk holding only the non-square `photo.jpg`. -/
def fs5w : FS := [("/srv/img/photo.jpg", FileData.image 30 20 "A")]

/-- A disk with a file in the sibling directory `/srv/imgx`. -/
def fs6 : FS := [("/srv/imgx/secret.jpg", .image 5 5 "S")]

/-! ### Theorems -/

/-! Equation lemmas characterising the four exit paths of `check_match`. -/

theorem check_match_eq_invalid (s : Session) (c1 c2 : Int)
    (hg : c1 ≥ ((s.cards.getD []).length : Int) ∨ c2 ≥ ((s.cards.getD []).length : Int) ∨
      c1 < 0 ∨ c2 < 0) :
    check_match s c1 c2 = .error .invalidIndex := by
  simp only [check_match]
  rw [if_pos hg]

theorem check_match_eq_already (s : Session) (c1 c2 : Int)
    (hg : ¬(c1 ≥ ((s.cards.getD []).length : Int) ∨ c2 ≥ ((s.cards.getD []).length : Int) ∨
      c1 < 0 ∨ c2 < 0))
    (hm : c1 ∈ s.matched.getD [] ∨ c2 ∈ s.matched.getD []) :
    check_match s c1 c2 = .error .alreadyMatched := by
  simp only [check_match]
  rw [if_neg hg, if_pos hm]

theorem check_match_eq_match (s : Session) (c1 c2 : Int)
    (hg : ¬(c1 ≥ ((s.cards.getD []).length : Int) ∨ c2 ≥ ((s.cards.getD []).length : Int) ∨
      c1 < 0 ∨ c2 < 0))
    (hm : ¬(c1 ∈ s.matched.getD [] ∨ c2 ∈ s.matched.getD []))
    (hv : (s.cards.getD []).getD c1.toNat 0 = (s.cards.getD []).getD c2.toNat 0) :
    check_match s c1 c2 =
      .ok (⟨true, get_card_image s ((s.cards.getD []).getD c1.toNat 0),
            get_card_image s ((s.cards.getD []).getD c2.toNat 0),
            s.current_player.getD 1,
            (credit_player (s.current_player.getD 1) (s.player1_matches.getD [])
              (s.player2_matches.getD []) ((s.cards.getD []).getD c1.toNat 0)).1.length,
            (credit_player (s.current_player.getD 1) (s.player1_matches.getD [])
              (s.player2_matches.getD []) ((s.cards.getD []).getD c1.toNat 0)).2.length,
            s.matched.getD [] ++ [c1, c2],
            decide ((s.matched.getD [] ++ [c1, c2]).length = (s.cards.getD []).length)⟩,
           { s with matched := some (s.matched.getD [] ++ [c1, c2]),
                    current_player := some (s.current_player.getD 1),
                    player1_matches := some (credit_player (s.current_player.getD 1)
                      (s.player1_matches.getD []) (s.player2_matches.getD [])
                      ((s.cards.getD []).getD c1.toNat 0)).1,
                    player2_matches := some (credit_player (s.current_player.getD 1)
                      (s.player1_matches.getD []) (s.player2_matches.getD [])
                      ((s.cards.getD []).getD c1.toNat 0)).2 }) := by
  simp only [check_match]
  rw [if_neg hg, if_neg hm, if_pos hv]

theorem check_match_eq_mismatch (s : Session) (c1 c2 : Int)
    (hg : ¬(c1 ≥ ((s.cards.getD []).length : Int) ∨ c2 ≥ ((s.cards.getD []).length : Int) ∨
      c1 < 0 ∨ c2 < 0))
    (hm : ¬(c1 ∈ s.matched.getD [] ∨ c2 ∈ s.matched.getD []))
    (hv : ¬((s.cards.getD []).getD c1.toNat 0 = (s.cards.getD []).getD c2.toNat 0)) :
    check_match s c1 c2 =
      .ok (⟨false, get_card_image s ((s.cards.getD []).getD c1.toNat 0),
            get_card_image s ((s.cards.getD []).getD c2.toNat 0),
            toggle_player (s.current_player.getD 1),
            (s.player1_matches.getD []).length, (s.player2_matches.getD []).length,
            s.matched.getD [], false⟩,
           { s with matched := some (s.matched.getD []),
                    current_player := some (toggle_player (s.current_player.getD 1)),
                    player1_matches := some (s.player1_matches.getD []),
                    player2_matches := some (s.player2_matches.getD []) }) := by
  simp only [check_match]
  rw [if_neg hg, if_neg hm, if_neg hv]

/-- Any successful `check_match` call came through one of the two `.ok`
paths, with the guards false. -/
theorem check_match_ok_cases (s : Session) (c1 c2 : Int) (r : CheckResult) (s' : Session)
    (hok : check_match s c1 c2 = .ok (r, s')) :
    ¬(c1 ≥ ((s.cards.getD []).length : Int) ∨ c2 ≥ ((s.cards.getD []).length : Int) ∨
      c1 < 0 ∨ c2 < 0) ∧
    ¬(c1 ∈ s.matched.getD [] ∨ c2 ∈ s.matched.getD []) := by
  by_cases hg : c1 ≥ ((s.cards.getD []).length : Int) ∨ c2 ≥ ((s.cards.getD []).length : Int) ∨
      c1 < 0 ∨ c2 < 0
  · rw [check_match_eq_invalid s c1 c2 hg] at hok
    exact Except.noConfusion hok
  by_cases hm : c1 ∈ s.matched.getD [] ∨ c2 ∈ s.matched.getD []
  · rw [check_match_eq_already s c1 c2 hg hm] at hok
    exact Except.noConfusion hok
  exact ⟨hg, hm⟩

/-- C1: for in-range, not-yet-matched positions, `check_match` succeeds;
on equal card values it appends both positions to `matched`, appends the
matched value to the current player's match list, and leaves
`current_player` unchanged; on unequal values it toggles `current_player`
between 1 and 2 and leaves `matched` unchanged. -/
theorem check_match_turn_logic (s : Session) (c1 c2 : Int)
    (h1 : 0 ≤ c1) (h2 : c1 < ((s.cards.getD []).length : Int))
    (h3 : 0 ≤ c2) (h4 : c2 < ((s.cards.getD []).length : Int))
    (h5 : c1 ∉ s.matched.getD []) (h6 : c2 ∉ s.matched.getD []) :
    ∃ r s', check_match s c1 c2 = .ok (r, s') ∧
      ((s.cards.getD []).getD c1.toNat 0 = (s.cards.getD []).getD c2.toNat 0 →
        r.is_match = true ∧
        s'.matched = some (s.matched.getD [] ++ [c1, c2]) ∧
        (s.current_player.getD 1 = 1 →
          s'.player1_matches = some (s.player1_matches.getD [] ++ [(s.cards.getD []).getD c1.toNat 0]) ∧
          s'.player2_matches = some (s.player2_matches.getD [])) ∧
        (s.current_player.getD 1 ≠ 1 →
          s'.player2_matches = some (s.player2_matches.getD [] ++ [(s.cards.getD []).getD c1.toNat 0]) ∧
          s'.player1_matches = some (s.player1_matches.getD [])) ∧
        s'.current_player = some (s.current_player.getD 1) ∧
        r.current_player = s.current_player.getD 1) ∧
      ((s.cards.getD []).getD c1.toNat 0 ≠ (s.cards.getD []).getD c2.toNat 0 →
        r.is_match = false ∧
        s'.matched = some (s.matched.getD []) ∧
        (s.current_player.getD 1 = 1 → s'.current_player = some 2) ∧
        (s.current_player.getD 1 = 2 → s'.current_player = some 1) ∧
        r.current_player = toggle_player (s.current_player.getD 1)) := by
  have hg : ¬(c1 ≥ ((s.cards.getD []).length : Int) ∨ c2 ≥ ((s.cards.getD []).length : Int) ∨
      c1 < 0 ∨ c2 < 0) := by
    push_neg
    exact ⟨h2, h4, h1, h3⟩
  have hm : ¬(c1 ∈ s.matched.getD [] ∨ c2 ∈ s.matched.getD []) := by
    push_neg
    exact ⟨h5, h6⟩
  by_cases hv : (s.cards.getD []).getD c1.toNat 0 = (s.cards.getD []).getD c2.toNat 0
  · refine ⟨_, _, check_match_eq_match s c1 c2 hg hm hv, ?_, ?_⟩
    · intro _
      refine ⟨rfl, rfl, ?_, ?_, rfl, rfl⟩
      · intro hcp
        constructor <;> simp [credit_player, hcp]
      · intro hcp
        constructor <;> simp [credit_player, hcp]
    · intro hne
      exact absurd hv hne
  · refine ⟨_, _, check_match_eq_mismatch s c1 c2 hg hm hv, ?_, ?_⟩
    · intro heq
      exact absurd heq hv
    · intro _
      refine ⟨rfl, rfl, ?_, ?_, rfl⟩
      · intro hcp
        simp [toggle_player, hcp]
      · intro hcp
        simp [toggle_player, hcp]

theorem check_match_turn_logic_witness :
    ∃ r s', check_match s1w 0 2 = .ok (r, s') ∧
      ((s1w.cards.getD []).getD (0 : Int).toNat 0 = (s1w.cards.getD []).getD (2 : Int).toNat 0 →
        r.is_match = true ∧
        s'.matched = some (s1w.matched.getD [] ++ [0, 2]) ∧
        (s1w.current_player.getD 1 = 1 →
          s'.player1_matches = some (s1w.player1_matches.getD [] ++ [(s1w.cards.getD []).getD (0 : Int).toNat 0]) ∧
          s'.player2_matches = some (s1w.player2_matches.getD [])) ∧
        (s1w.current_player.getD 1 ≠ 1 →
          s'.player2_matches = some (s1w.player2_matches.getD [] ++ [(s1w.cards.getD []).getD (0 : Int).toNat 0]) ∧
          s'.player1_matches = some (s1w.player1_matches.getD [])) ∧
        s'.current_player = some (s1w.current_player.getD 1) ∧
        r.current_player = s1w.current_player.getD 1) ∧
      ((s1w.cards.getD []).getD (0 : Int).toNat 0 ≠ (s1w.cards.getD []).getD (2 : Int).toNat 0 →
        r.is_match = false ∧
        s'.matched = some (s1w.matched.getD []) ∧
        (s1w.current_player.getD 1 = 1 → s'.current_player = some 2) ∧
        (s1w.current_player.getD 1 = 2 → s'.current_player = some 1) ∧
        r.current_player = toggle_player (s1w.current_player.getD 1)) :=
  check_match_turn_logic s1w 0 2 (by decide) (by decide) (by decide) (by decide)
    (by decide) (by decide)

/-- C10: `check_match` accepts `pos1 = pos2 = i` for any in-range position
`i` not yet matched, reports a match (the value equals itself), records `i`
twice in `matched`, and credits the current player with a pair. -/
theorem check_match_self_pair (s : Session) (i : Int)
    (h1 : 0 ≤ i) (h2 : i < ((s.cards.getD []).length : Int))
    (h3 : i ∉ s.matched.getD []) :
    ∃ r s', check_match s i i = .ok (r, s') ∧
      r.is_match = true ∧
      s'.matched = some (s.matched.getD [] ++ [i, i]) ∧
      (s.current_player.getD 1 = 1 →
        s'.player1_matches = some (s.player1_matches.getD [] ++ [(s.cards.getD []).getD i.toNat 0]) ∧
        r.player1_pairs = (s.player1_matches.getD []).length + 1) ∧
      (s.current_player.getD 1 ≠ 1 →
        s'.player2_matches = some (s.player2_matches.getD [] ++ [(s.cards.getD []).getD i.toNat 0]) ∧
        r.player2_pairs = (s.player2_matches.getD []).length + 1) := by
  have hg : ¬(i ≥ ((s.cards.getD []).length : Int) ∨ i ≥ ((s.cards.getD []).length : Int) ∨
      i < 0 ∨ i < 0) := by
    push_neg
    exact ⟨h2, h2, h1, h1⟩
  have hm : ¬(i ∈ s.matched.getD [] ∨ i ∈ s.matched.getD []) := by
    push_neg
    exact ⟨h3, h3⟩
  have hv : (s.cards.getD []).getD i.toNat 0 = (s.cards.getD []).getD i.toNat 0 := rfl
  refine ⟨_, _, check_match_eq_match s i i hg hm hv, rfl, rfl, ?_, ?_⟩
  · intro hcp
    constructor <;> simp [credit_player, hcp]
  · intro hcp
    constructor <;> simp [credit_player, hcp]

theorem check_match_self_pair_witness :
    ∃ r s', check_match s1w 3 3 = .ok (r, s') ∧
      r.is_match = true ∧
      s'.matched = some (s1w.matched.getD [] ++ [3, 3]) ∧
      (s1w.current_player.getD 1 = 1 →
        s'.player1_matches = some (s1w.player1_matches.getD [] ++ [(s1w.cards.getD []).getD (3 : Int).toNat 0]) ∧
        r.player1_pairs = (s1w.player1_matches.getD []).length + 1) ∧
      (s1w.current_player.getD 1 ≠ 1 →
        s'.player2_matches = some (s1w.player2_matches.getD [] ++ [(s1w.cards.getD []).getD (3 : Int).toNat 0]) ∧
        r.player2_pairs = (s1w.player2_matches.getD []).length + 1) :=
  check_match_self_pair s1w 3 (by decide) (by decide) (by decide)

/-! ### The matched-list invariant (C2) -/

theorem Paired.append_pair {cards : List Nat} {m : List Int} (hp : Paired cards m)
    {p q : Int} (h : cards.getD p.toNat 0 = cards.getD q.toNat 0) :
    Paired cards (m ++ [p, q]) := by
  induction hp with
  | nil => exact .pair p q [] h .nil
  | pair a b rest hab _ ih => exact .pair a b _ hab ih

theorem Paired.length_even {cards : List Nat} {m : List Int} (hp : Paired cards m) :
    m.length % 2 = 0 := by
  induction hp with
  | nil => rfl
  | pair a b rest _ _ ih =>
    simp only [List.length_cons]
    omega

/-- A duplicate-free list of integers drawn from `[0, n)` missing at least
one element of `[0, n)` is shorter than `n`. -/
theorem nodup_length_lt (m : List Int) (n : Nat) (hd : m.Nodup)
    (hm : ∀ p ∈ m, 0 ≤ p ∧ p < (n : Int)) (c : Int)
    (hc0 : 0 ≤ c) (hc1 : c < (n : Int)) (hcm : c ∉ m) :
    m.length < n := by
  classical
  have hsub : m.toFinset ⊆ Finset.Ico (0 : Int) (n : Int) := by
    intro x hx
    rcases hm x (List.mem_toFinset.mp hx) with ⟨hx0, hx1⟩
    exact Finset.mem_Ico.mpr ⟨hx0, hx1⟩
  have hss : m.toFinset ⊂ Finset.Ico (0 : Int) (n : Int) :=
    (Finset.ssubset_iff_of_subset hsub).mpr
      ⟨c, Finset.mem_Ico.mpr ⟨hc0, hc1⟩, by simpa using hcm⟩
  have hcard := Finset.card_lt_card hss
  rw [List.toFinset_card_of_nodup hd, Int.card_Ico] at hcard
  simpa using hcard

theorem check_match_preserves_inv (s : Session) (c1 c2 : Int) (r : CheckResult) (s' : Session)
    (hne : c1 ≠ c2) (hok : check_match s c1 c2 = .ok (r, s')) (hinv : MatchInv s) :
    MatchInv s' ∧ s'.cards = s.cards ∧
    (r.game_over = true ↔ (s'.matched.getD []).length = (s'.cards.getD []).length) := by
  obtain ⟨cards, m, hc, hmm, hnd, hrange, hpair⟩ := hinv
  obtain ⟨hg, hmem⟩ := check_match_ok_cases s c1 c2 r s' hok
  have hg' := hg
  push_neg at hg'
  obtain ⟨hl1, hl2, hl3, hl4⟩ := hg'
  have hmem' := hmem
  push_neg at hmem'
  obtain ⟨hm1, hm2⟩ := hmem'
  rw [hc, Option.getD_some] at hl1 hl2
  rw [hmm, Option.getD_some] at hm1 hm2
  by_cases hv : (s.cards.getD []).getD c1.toNat 0 = (s.cards.getD []).getD c2.toNat 0
  · rw [check_match_eq_match s c1 c2 hg hmem hv] at hok
    simp only [Except.ok.injEq, Prod.mk.injEq] at hok
    obtain ⟨hr, hs⟩ := hok
    subst hr
    subst hs
    have hnodup : (m ++ [c1, c2]).Nodup := by
      rw [List.nodup_append]
      refine ⟨hnd, by simp [hne], ?_⟩
      intro a ha hb
      rcases (by simpa using hb : a = c1 ∨ a = c2) with rfl | rfl
      · exact hm1 ha
      · exact hm2 ha
    have hrange' : ∀ p ∈ m ++ [c1, c2], 0 ≤ p ∧ p < (cards.length : Int) := by
      intro p hp
      rcases List.mem_append.mp hp with h | h
      · exact hrange p h
      · rcases (by simpa using h : p = c1 ∨ p = c2) with rfl | rfl
        · exact ⟨hl3, hl1⟩
        · exact ⟨hl4, hl2⟩
    have hv' : cards.getD c1.toNat 0 = cards.getD c2.toNat 0 := by
      rw [hc, Option.getD_some] at hv
      exact hv
    refine ⟨⟨cards, m ++ [c1, c2], ?_, by simp [hmm], hnodup, hrange', hpair.append_pair hv'⟩,
      rfl, ?_⟩
    · exact hc
    · simp [hmm, hc, decide_eq_true_eq]
  · rw [check_match_eq_mismatch s c1 c2 hg hmem hv] at hok
    simp only [Except.ok.injEq, Prod.mk.injEq] at hok
    obtain ⟨hr, hs⟩ := hok
    subst hr
    subst hs
    have hlt : m.length < cards.length :=
      nodup_length_lt m cards.length hnd hrange c1 hl3 hl1 hm1
    refine ⟨⟨cards, m, hc, by simp [hmm], hnd, hrange, hpair⟩, rfl, ?_⟩
    simp [hmm, hc]
    omega

theorem reachable_inv (s : Session) (h : ReachableDistinct s) : MatchInv s := by
  induction h with
  | dealt shuffle s0 => exact ⟨_, [], rfl, rfl, List.nodup_nil, by simp, .nil⟩
  | step s0 c1 c2 r s' _ hne hok ih =>
    exact (check_match_preserves_inv s0 c1 c2 r s' hne hok ih).1

/-- C2 (amended: each call's two positions must be distinct; see the
counterexample for `pos1 = pos2`): after any sequence of distinct-position
`check_match` calls on a dealt board, `matched` is duplicate-free,
in-range, pair-structured with equal card values, of even length — and any
further successful distinct-position call returns `game_over = true` iff
`|matched| = len(cards)` afterwards. -/
theorem matched_invariant_and_game_over (s : Session) (h : ReachableDistinct s) :
    (∃ cards m, s.cards = some cards ∧ s.matched = some m ∧
      m.Nodup ∧ (∀ p ∈ m, 0 ≤ p ∧ p < (cards.length : Int)) ∧
      Paired cards m ∧ m.length % 2 = 0) ∧
    (∀ c1 c2 r s', c1 ≠ c2 → check_match s c1 c2 = .ok (r, s') →
      (r.game_over = true ↔ (s'.matched.getD []).length = (s'.cards.getD []).length)) := by
  have hinv := reachable_inv s h
  constructor
  · obtain ⟨cards, m, h1, h2, h3, h4, h5⟩ := hinv
    exact ⟨cards, m, h1, h2, h3, h4, h5, h5.length_even⟩
  · intro c1 c2 r s' hne hok
    exact (check_match_preserves_inv s c1 c2 r s' hne hok hinv).2.2

theorem matched_invariant_and_game_over_witness :
    (∃ cards m, (setup_card_pairs id s2w).cards = some cards ∧
      (setup_card_pairs id s2w).matched = some m ∧
      m.Nodup ∧ (∀ p ∈ m, 0 ≤ p ∧ p < (cards.length : Int)) ∧
      Paired cards m ∧ m.length % 2 = 0) ∧
    (∀ c1 c2 r s', c1 ≠ c2 → check_match (setup_card_pairs id s2w) c1 c2 = .ok (r, s') →
      (r.game_over = true ↔ (s'.matched.getD []).length = (s'.cards.getD []).length)) :=
  matched_invariant_and_game_over (setup_card_pairs id s2w) (.dealt id s2w)

/-- Counterexample to C2 as stated: on the 2-card dealt board `[0, 0]`, the
single call `check_match(0, 0)` succeeds and records position 0 twice, so
`matched` is not duplicate-free (and `game_over` is reported `true` while
position 1 was never matched). -/
theorem matched_duplicate_counterexample :
    (check_match (setup_card_pairs id s2c) 0 0).toOption.map (fun rs => rs.2.matched) =
      some (some [0, 0]) ∧
    (check_match (setup_card_pairs id s2c) 0 0).toOption.map (fun rs => rs.1.game_over) =
      some true ∧
    ¬ ([(0 : Int), 0].Nodup) :=
  ⟨rfl, rfl, by decide⟩

/-! ### Dealing (C8) and sampling (C9) -/

/-- C8: for any shuffle oracle that permutes its input (as `random.shuffle`
does), dealing over `k` selected images produces a `cards` sequence of
length `2k` that is a permutation of `[0..k-1, 0..k-1]`, with every value
in `[0, k)` appearing exactly twice, and resets `matched` to empty. -/
theorem setup_card_pairs_spec (shuffle : List Nat → List Nat)
    (hsh : ∀ l, List.Perm (shuffle l) l) (s : Session) :
    ∃ cards, (setup_card_pairs shuffle s).cards = some cards ∧
      (setup_card_pairs shuffle s).matched = some [] ∧
      List.Perm cards
        (List.range (s.all_game_images.getD []).length ++
         List.range (s.all_game_images.getD []).length) ∧
      cards.length = 2 * (s.all_game_images.getD []).length ∧
      (∀ v, v < (s.all_game_images.getD []).length → cards.count v = 2) := by
  refine ⟨_, rfl, rfl, hsh _, ?_, ?_⟩
  · rw [(hsh _).length_eq]
    simp only [List.length_append, List.length_range]
    omega
  · intro v hv
    rw [(hsh _).count_eq]
    rw [List.count_append]
    have h1 : (List.range (s.all_game_images.getD []).length).count v = 1 :=
      List.count_eq_one_of_mem (List.nodup_range _) (List.mem_range.mpr hv)
    omega

theorem setup_card_pairs_spec_witness :
    ∃ cards, (setup_card_pairs id s2w).cards = some cards ∧
      (setup_card_pairs id s2w).matched = some [] ∧
      List.Perm cards
        (List.range (s2w.all_game_images.getD []).length ++
         List.range (s2w.all_game_images.getD []).length) ∧
      cards.length = 2 * (s2w.all_game_images.getD []).length ∧
      (∀ v, v < (s2w.all_game_images.getD []).length → cards.count v = 2) :=
  setup_card_pairs_spec id (fun l => List.Perm.refl l) s2w

/-- C9: when the catalog holds fewer than `k` images, `_get_k_random_images`
returns all of them (their names), without error and without consulting the
sampling oracle. -/
theorem get_k_random_images_small_catalog
    (sample : List FsPath → Nat → List FsPath) (files : List FsPath) (k : Nat)
    (h : files.length < k) :
    get_k_random_images sample files k = files.map (fun f => f.getLastD "") := by
  unfold get_k_random_images
  rw [if_pos (Nat.le_of_lt h)]

theorem get_k_random_images_small_catalog_witness :
    (1 < 3 ∧
      get_k_random_images (fun fs _ => fs) [["srv", "img", "a.jpg"]] 3 =
        [["srv", "img", "a.jpg"]].map (fun f => f.getLastD "")) :=
  ⟨by decide,
   get_k_random_images_small_catalog (fun fs _ => fs) [["srv", "img", "a.jpg"]] 3 (by decide)⟩

/-! ### Re-initialization frame (C7) -/

/-- C7: when a round is already selected (`all_game_images` present),
re-invoking `init` does not resample: `selected_images` and the
`pending_crops` queue are left unchanged and a nonempty queue is resumed
from its head; `reset` clears `selected_images`, while successful
`check_match` calls and `save_crop` never change it. -/
theorem init_frame (bw bh : Nat) (sel : List String) (shuffle : List Nat → List Nat)
    (fs : FS) (s : Session) (imgs : List String)
    (h : s.all_game_images = some imgs) :
    (init bw bh sel shuffle fs s).2.1.all_game_images = some imgs ∧
    (init bw bh sel shuffle fs s).2.1.pending_crops = s.pending_crops ∧
    (∀ p rest, s.pending_crops = some (p :: rest) →
      (init bw bh sel shuffle fs s).1 = .pendingCrops p (p :: rest).length) ∧
    (reset s).all_game_images = none ∧
    (∀ c1 c2 out, check_match s c1 c2 = .ok out →
      out.2.all_game_images = s.all_game_images ∧
      out.2.pending_crops = s.pending_crops) ∧
    (∀ fn cb, (save_crop shuffle fs s fn cb).2.1.all_game_images = s.all_game_images) := by
  have hn : s.all_game_images.isNone = false := by
    rw [h]
    rfl
  refine ⟨?_, ?_, ?_, rfl, ?_, ?_⟩
  · simp only [init, hn, Bool.false_eq_true, if_false]
    by_cases hpe : (s.pending_crops.getD []).isEmpty
    · simp [hpe, setup_card_pairs, h]
    · simp [hpe, h]
  · simp only [init, hn, Bool.false_eq_true, if_false]
    by_cases hpe : (s.pending_crops.getD []).isEmpty
    · simp [hpe, setup_card_pairs]
    · simp [hpe]
  · intro p rest hpc
    have hpe : (s.pending_crops.getD []).isEmpty = false := by
      rw [hpc]
      rfl
    simp [init, hn, hpe, hpc]
  · intro c1 c2 out hok
    obtain ⟨hg, hmem⟩ := check_match_ok_cases s c1 c2 out.1 out.2 hok
    by_cases hv : (s.cards.getD []).getD c1.toNat 0 = (s.cards.getD []).getD c2.toNat 0
    · rw [check_match_eq_match s c1 c2 hg hmem hv] at hok
      injection hok with hpair
      subst hpair
      exact ⟨rfl, rfl⟩
    · rw [check_match_eq_mismatch s c1 c2 hg hmem hv] at hok
      injection hok with hpair
      subst hpair
      exact ⟨rfl, rfl⟩
  · intro fn cb
    cases fn with
    | none =>
      cases cb with
      | none => rfl
      | some cb => rfl
    | some fn =>
      cases cb with
      | none => rfl
      | some cb =>
        simp only [save_crop]
        repeat' split
        all_goals rfl

theorem init_frame_witness :
    (init 2 2 [] id [] s7w).2.1.all_game_images = some ["a.jpg", "b.jpg"] ∧
    (init 2 2 [] id [] s7w).2.1.pending_crops = s7w.pending_crops ∧
    (∀ p rest, s7w.pending_crops = some (p :: rest) →
      (init 2 2 [] id [] s7w).1 = .pendingCrops p (p :: rest).length) ∧
    (reset s7w).all_game_images = none ∧
    (∀ c1 c2 out, check_match s7w c1 c2 = .ok out →
      out.2.all_game_images = s7w.all_game_images ∧
      out.2.pending_crops = s7w.pending_crops) ∧
    (∀ fn cb, (save_crop id [] s7w fn cb).2.1.all_game_images = s7w.all_game_images) :=
  init_frame 2 2 [] id [] s7w ["a.jpg", "b.jpg"] rfl

/-! ### Crop resubmission (C3) -/

/-- C3 (code bug): submitting a crop for a filename that is valid on disk
but no longer in `pending_crops` (e.g. a second submission after the first
removed it) does not fail with a structured NotPending error — the code
never checks membership, so `session['pending_crops'].remove(filename)`
raises an uncaught `ValueError` (a 500 response), and the derivative has
already been overwritten on disk before the exception. -/
theorem save_crop_nonpending_uncaught_exception :
    (save_crop id fs3 s3 (some "photo.jpg") (some box3)).1 = SaveCropResult.valueError ∧
    readFS (save_crop id fs3 s3 (some "photo.jpg") (some box3)).2.2
        (imgDir ++ ["squared", "photo_square.jpg"]) =
      some (FileData.image 10 10 "jpeg95crop:A") ∧
    readFS fs3 (imgDir ++ ["squared", "photo_square.jpg"]) = none :=
  ⟨rfl, rfl, rfl⟩

/-! ### Display filenames (C4) -/

/-- Counterexample to C4 as stated: a square derivative exists for
`photo.jpg`, yet a successful `check_match` returns the base filename
`photo.jpg`, not the derivative name. -/
theorem check_match_base_name_counterexample :
    has_cropped_version fs4 "photo.jpg" = true ∧
    get_display_filename fs4 "photo.jpg" = "squared/photo_square.jpg" ∧
    (check_match s4 0 1).toOption.map (fun rs => rs.1.image1) = some (some "photo.jpg") ∧
    some "photo.jpg" ≠ some (get_display_filename fs4 "photo.jpg") :=
  ⟨rfl, rfl, rfl, by decide⟩

/-- C4 (amended): a successful `check_match` always returns, for each
revealed card value, the base filename stored in the session image list
(`init_game_state` stores base filenames, not display names); the
derivative substitution happens only when the image is fetched —
`serve_image` serves the cached derivative whenever it exists. -/
theorem check_match_returns_base_filename (s : Session) (c1 c2 : Int)
    (out : CheckResult × Session) (hok : check_match s c1 c2 = .ok out)
    (fs : FS) (b : String)
    (hcrop : has_cropped_version fs b = true)
    (hsafe : startsWithStr (render ((resolvePath (get_cropped_version_path b)).dropLast))
      (render (resolvePath imgDir)) = true) :
    out.1.image1 = get_card_image s ((s.cards.getD []).getD c1.toNat 0) ∧
    out.1.image2 = get_card_image s ((s.cards.getD []).getD c2.toNat 0) ∧
    (∀ sel fs0, (init_game_state sel fs0).1.all_game_images = some sel) ∧
    serve_image fs b = .file (resolvePath (get_cropped_version_path b)) := by
  obtain ⟨hg, hmem⟩ := check_match_ok_cases s c1 c2 out.1 out.2 hok
  refine ⟨?_, ?_, fun sel fs0 => rfl, ?_⟩
  · by_cases hv : (s.cards.getD []).getD c1.toNat 0 = (s.cards.getD []).getD c2.toNat 0
    · rw [check_match_eq_match s c1 c2 hg hmem hv] at hok
      injection hok with hpair
      subst hpair
      rfl
    · rw [check_match_eq_mismatch s c1 c2 hg hmem hv] at hok
      injection hok with hpair
      subst hpair
      rfl
  · by_cases hv : (s.cards.getD []).getD c1.toNat 0 = (s.cards.getD []).getD c2.toNat 0
    · rw [check_match_eq_match s c1 c2 hg hmem hv] at hok
      injection hok with hpair
      subst hpair
      rfl
    · rw [check_match_eq_mismatch s c1 c2 hg hmem hv] at hok
      injection hok with hpair
      subst hpair
      rfl
  · simp only [has_cropped_version] at hcrop
    simp only [serve_image]
    rw [if_pos hcrop, if_pos hsafe]

theorem check_match_returns_base_filename_witness :
    out4.1.image1 = get_card_image s4 ((s4.cards.getD []).getD (0 : Int).toNat 0) ∧
    out4.1.image2 = get_card_image s4 ((s4.cards.getD []).getD (1 : Int).toNat 0) ∧
    (∀ sel fs0, (init_game_state sel fs0).1.all_game_images = some sel) ∧
    serve_image fs4 "photo.jpg" = .file (resolvePath (get_cropped_version_path "photo.jpg")) :=
  check_match_returns_base_filename s4 0 1 out4 rfl fs4 "photo.jpg" rfl rfl

/-! ### Derivative materialization (C5) -/

/-- Counterexample to C5 as stated: the derivative for `photo.jpg` already
exists and the source is not square, yet `copy_square_image` succeeds and
overwrites the existing derivative (so it is neither a no-op when the
derivative exists, nor an error when the source is non-square, and a
derivative IS regenerated). -/
theorem copy_square_image_overwrite_counterexample :
    has_cropped_version fs5 "photo.jpg" = true ∧
    is_square_image fs5 "photo.jpg" = false ∧
    (copy_square_image fs5 "photo.jpg").1 = some "photo_square.jpg" ∧
    readFS (copy_square_image fs5 "photo.jpg").2 (imgDir ++ ["squared", "photo_square.jpg"]) =
      some (FileData.image 30 20 "A") ∧
    readFS fs5 (imgDir ++ ["squared", "photo_square.jpg"]) = some (FileData.image 10 10 "B") :=
  ⟨rfl, rfl, rfl, rfl, rfl⟩

/-- C5 (amended): `copy_square_image` itself checks neither for an existing
derivative nor for squareness: for any safe, existing `.jpg`/`.jpeg` source
it byte-copies the source into `<stem>_square.jpg`, overwriting any prior
derivative, and returns the derivative name; the existing-derivative and
square-source guards live in its caller (`init_game_state`'s loop skips
images that already have a derivative). -/
theorem copy_square_image_always_writes (fs : FS) (fn : String) (p : FsPath) (d : FileData)
    (hp : get_safe_image_path fs fn = some p)
    (hd : readFS fs p = some d)
    (hsuf : lowerStr (pathSuffix p) = ".jpg" ∨ lowerStr (pathSuffix p) = ".jpeg") :
    copy_square_image fs fn =
      (some (pathStem p ++ "_square.jpg"),
       writeFS fs (p.dropLast ++ ["squared", pathStem p ++ "_square.jpg"]) d) ∧
    (∀ fs2 img rest, has_cropped_version fs2 img = true →
      process_selected fs2 (img :: rest) = process_selected fs2 rest) := by
  constructor
  · simp only [copy_square_image, hp]
    rw [if_pos hsuf]
    simp only [hd]
  · intro fs2 img rest hc
    simp only [process_selected]
    rw [if_pos hc]

theorem copy_square_image_always_writes_witness :
    copy_square_image fs5w "photo.jpg" =
      (some (pathStem ["srv", "img", "photo.jpg"] ++ "_square.jpg"),
       writeFS fs5w (["srv", "img", "photo.jpg"].dropLast ++
         ["squared", pathStem ["srv", "img", "photo.jpg"] ++ "_square.jpg"])
         (FileData.image 30 20 "A")) ∧
    (∀ fs2 img rest, has_cropped_version fs2 img = true →
      process_selected fs2 (img :: rest) = process_selected fs2 rest) :=
  copy_square_image_always_writes fs5w "photo.jpg" ["srv", "img", "photo.jpg"]
    (FileData.image 30 20 "A") rfl rfl (Or.inl rfl)

/-! ### Path validation (C6) -/

/-- Counterexample to C6 as stated: `serve_image` uses a string-prefix
check, not parent equality, so the traversal filename `../imgx/secret.jpg`
— whose resolved parent `/srv/imgx` is NOT the image root `/srv/img` — is
nevertheless served (the prefix check passes because `/srv/imgx` extends
the string `/srv/img`). -/
theorem serve_image_escape_counterexample :
    serve_image fs6 "../imgx/secret.jpg" = .file ["srv", "imgx", "secret.jpg"] ∧
    (resolvePath (imgDir ++ splitPath "../imgx/secret.jpg")).dropLast ≠ resolvePath imgDir :=
  ⟨rfl, by decide⟩

/-- C6 (amended): operations that go through `get_safe_image_path` (crop
tool, dimensions, crop submission) do enforce resolved-parent equality
with the image root, failing as not-found otherwise; `serve_image` instead
enforces only that the resolved parent's rendered path starts with the
image root's rendered path — which admits the `squared/` subdirectory (by
design) and also sibling directories whose names extend the root string. -/
theorem path_validation_split (fs : FS) (fn : String) (p : FsPath)
    (hp : get_safe_image_path fs fn = some p) :
    (resolvePath p).dropLast = resolvePath imgDir ∧
    (∀ fp q, serve_image fs fp = .file q →
      startsWithStr (render q.dropLast) (render (resolvePath imgDir)) = true) := by
  constructor
  · simp only [get_safe_image_path] at hp
    split_ifs at hp
    all_goals injection hp with hp'
    all_goals subst hp'
    all_goals assumption
  · intro fp q hq
    simp only [serve_image] at hq
    split_ifs at hq
    all_goals injection hq with hq'
    all_goals subst hq'
    all_goals assumption

theorem path_validation_split_witness :
    (resolvePath ["srv", "img", "photo.jpg"]).dropLast = resolvePath imgDir ∧
    (∀ fp q, serve_image fs5w fp = .file q →
      startsWithStr (render q.dropLast) (render (resolvePath imgDir)) = true) :=
  path_validation_split fs5w "photo.jpg" ["srv", "img", "photo.jpg"] rfl

end MemoryGame
